import Mathlib

/-!
Shallow embedding of `qiskit/circuit/library/n_local/ryrz.py`: the RYRZ
two-local variational circuit.

The file under analysis is a thin wrapper.  Its own code consists of a
constructor that forwards its arguments to the external `TwoLocal` base
class, fixing the rotation blocks to `[RYGate, RZGate]`, and a
`parameter_bounds` property returning `self.num_parameters * [(-pi, pi)]`.
The base class itself (parameter counting, entanglement resolution and
circuit assembly) is not part of the analysed source, so those pieces are
modelled from the specification, each marked `Modelled from the spec:` in
its doc comment.  The unspecified entanglement-resolution procedure of the
external builder is kept abstract as an explicit `Resolver` argument.
-/

/-- Gate kinds appearing in this unit: the two fixed rotation gates, the
default entanglement gate `CZGate`, and arbitrary further gate identifiers
(the Python code accepts gate names, types, instances or sub-circuits). -/
inductive Gate where
  | ry
  | rz
  | cz
  | other (ident : String)
deriving DecidableEq, Repr

/-- Entanglement specification, as in the Python signature: a named pattern
(a string such as "full", "linear", "circular" or "sca"), an explicit list
of qubit-index groups, or a callable mapping a layer index to such a list. -/
inductive Entanglement where
  | named (s : String)
  | pairs (l : List (List Nat))
  | callable (f : Nat → List (List Nat))

/-- Entanglement-block specification: a single gate or an ordered list of
gates, mirroring `Union[..., List[...]]` in the Python signature. -/
inductive BlockSpec where
  | single (g : Gate)
  | many (gs : List Gate)
deriving DecidableEq, Repr

/-- The gates of a block specification in application order. -/
def BlockSpec.toList : BlockSpec → List Gate
  | .single g => [g]
  | .many gs => gs

/-- The configuration record held by the external two-local builder after
construction: exactly the arguments `RYRZ.__init__` forwards via
`super().__init__`. -/
structure TwoLocalArgs where
  num_qubits : Option Nat
  rotation_blocks : List Gate
  entanglement_blocks : BlockSpec
  entanglement : Entanglement
  reps : Nat
  skip_unentangled_qubits : Bool
  skip_final_rotation_layer : Bool
  parameter_prefix : String
  insert_barriers : Bool
  initial_state : Option Unit

/-- The configured parameter-name stem of a builder state (reads the
`parameter_prefix` field). -/
def paramStem (s : TwoLocalArgs) : String :=
  TwoLocalArgs.parameter_prefix s

/-- Embedding of the body of `RYRZ.__init__` (ryrz.py lines 115-124): the
arguments passed to `super().__init__`, with `rotation_blocks` fixed to
`[RYGate, RZGate]` and everything else forwarded unchanged. -/
def RYRZ.toArgs (num_qubits : Option Nat) (entanglement_blocks : BlockSpec)
    (entanglement : Entanglement) (reps : Nat)
    (skip_unentangled_qubits : Bool) (skip_final_rotation_layer : Bool)
    (pfx : String) (insert_barriers : Bool) (initial_state : Option Unit) :
    TwoLocalArgs :=
  { num_qubits := num_qubits
    rotation_blocks := [Gate.ry, Gate.rz]
    entanglement_blocks := entanglement_blocks
    entanglement := entanglement
    reps := reps
    skip_unentangled_qubits := skip_unentangled_qubits
    skip_final_rotation_layer := skip_final_rotation_layer
    parameter_prefix := pfx
    insert_barriers := insert_barriers
    initial_state := initial_state }

/-- The argument values the Python signature of `RYRZ.__init__` (ryrz.py
lines 72-84) supplies when the caller omits every optional argument. -/
def RYRZ.defaults : TwoLocalArgs :=
  RYRZ.toArgs none (BlockSpec.single Gate.cz) (Entanglement.named "full") 3
    false false "θ" false none

/-- Modelled from the spec: `RYRZ.__init__` is exactly a call of the external
base constructor (which performs all validation and may fail) on the
forwarded arguments; the base constructor is abstracted as `base`. -/
def RYRZ.init {ε : Type} (base : TwoLocalArgs → Except ε TwoLocalArgs)
    (num_qubits : Option Nat) (entanglement_blocks : BlockSpec)
    (entanglement : Entanglement) (reps : Nat)
    (skip_unentangled_qubits : Bool) (skip_final_rotation_layer : Bool)
    (pfx : String) (insert_barriers : Bool) (initial_state : Option Unit) :
    Except ε TwoLocalArgs :=
  base (RYRZ.toArgs num_qubits entanglement_blocks entanglement reps
    skip_unentangled_qubits skip_final_rotation_layer pfx insert_barriers
    initial_state)

/-- Modelled from the spec: the builder's qubit count, "non-negative
integer, may be unset pending later assignment"; an unset count behaves as
zero qubits. -/
def qubitCount (s : TwoLocalArgs) : Nat :=
  s.num_qubits.getD 0

/-- Modelled from the spec: the number of rotation layers, "(repetitions +
1, or repetitions if final layer skipped)". -/
def numLayers (s : TwoLocalArgs) : Nat :=
  if s.skip_final_rotation_layer then s.reps else s.reps + 1

/-- The external builder's entanglement-resolution procedure, which the
specification leaves to the external collaborator: given the entanglement
specification, a layer index and the qubit count, it yields the qubit-index
groups of that entanglement layer.  Kept abstract as a parameter. -/
abbrev Resolver : Type :=
  Entanglement → Nat → Nat → List (List Nat)

/-- Modelled from the spec: the qubits touched by at least one entanglement,
collected over all entanglement layers. -/
def entangledQubits (resolve : Resolver) (s : TwoLocalArgs) : List Nat :=
  List.flatten ((List.range s.reps).map
    (fun i => List.flatten (resolve s.entanglement i (qubitCount s))))

/-- Modelled from the spec: the qubits receiving rotation gates, "optionally
restrict rotations to qubits touched by at least one entanglement" when
`skip_unentangled_qubits` is set, otherwise every qubit. -/
def activeQubits (resolve : Resolver) (s : TwoLocalArgs) : List Nat :=
  if s.skip_unentangled_qubits then
    (List.range (qubitCount s)).filter
      (fun q => (entangledQubits resolve s).contains q)
  else
    List.range (qubitCount s)

/-- Modelled from the spec: the free-parameter count maintained by the
external builder, "(qubit count, minus skipped ones if that option is set)
× 2 (two rotation kinds) × (repetitions + 1, or repetitions if final layer
skipped)"; the factor 2 is the length of the rotation-block list. -/
def num_parameters (resolve : Resolver) (s : TwoLocalArgs) : Nat :=
  (activeQubits resolve s).length * s.rotation_blocks.length * numLayers s

/-- Embedding of the `RYRZ.parameter_bounds` property (ryrz.py lines
126-133): `self.num_parameters * [(-pi, pi)]`, i.e. the pair `(-pi, pi)`
replicated once per free parameter; `p` stands for the numeric constant π
imported by the module. -/
def parameter_bounds (p : ℝ) (resolve : Resolver) (s : TwoLocalArgs) :
    List (ℝ × ℝ) :=
  List.replicate (num_parameters resolve s) (-p, p)

/-- Reassignment of the qubit count after construction (the builder exposes
a qubit-count setter; the wrapper adds none of its own). -/
def setNumQubits (s : TwoLocalArgs) (n : Option Nat) : TwoLocalArgs :=
  { s with num_qubits := n }

/-- Reassignment of the repetition count after construction. -/
def setReps (s : TwoLocalArgs) (r : Nat) : TwoLocalArgs :=
  { s with reps := r }

/-- Operations of the produced circuit template: a rotation of kind `g` on
qubit `q` consuming the scalar parameter with index `idx`, an entanglement
gate on a qubit group, or a separator marker. -/
inductive Op where
  | rot (g : Gate) (q : Nat) (idx : Nat)
  | ent (g : Gate) (conn : List Nat)
  | barrier
deriving DecidableEq, Repr

/-- One rotation gate of kind `g` on each listed qubit, consuming
consecutive fresh parameter indices starting at `start`. -/
def qubitRots (g : Gate) : List Nat → Nat → List Op
  | [], _ => []
  | q :: qs, start => Op.rot g q start :: qubitRots g qs (start + 1)

/-- Modelled from the spec: a rotation layer applies each rotation-block
kind in order to each active qubit, each gate consuming one fresh scalar
parameter. -/
def rotLayer : List Gate → List Nat → Nat → List Op
  | [], _, _ => []
  | g :: gs, qs, start => qubitRots g qs start ++ rotLayer gs qs (start + qs.length)

/-- The entanglement gates of one layer: each configured block applied to
each resolved qubit group. -/
def entOps (conns : List (List Nat)) : List Gate → List Op
  | [] => []
  | g :: gs => conns.map (Op.ent g) ++ entOps conns gs

/-- Modelled from the spec: an entanglement layer applies the configured
operation(s) according to the topology resolved for that layer. -/
def entLayer (resolve : Resolver) (s : TwoLocalArgs) (i : Nat) : List Op :=
  entOps (resolve s.entanglement i (qubitCount s))
    (BlockSpec.toList s.entanglement_blocks)

/-- A separator marker when barrier insertion is configured. -/
def barrierIf (b : Bool) : List Op :=
  if b then [Op.barrier] else []

/-- The first `k` repetitions of the template: repetition `i` is a rotation
layer (parameters starting at `i * ppl`, where `ppl` is the parameter
consumption of one rotation layer) followed by entanglement layer `i`, with
optional separators. -/
def repLayers (resolve : Resolver) (s : TwoLocalArgs) (qs : List Nat)
    (ppl : Nat) : Nat → List Op
  | 0 => []
  | k + 1 =>
    repLayers resolve s qs ppl k ++
      (rotLayer s.rotation_blocks qs (k * ppl) ++ barrierIf s.insert_barriers ++
        entLayer resolve s k ++ barrierIf s.insert_barriers)

/-- Modelled from the spec: the circuit template produced by the external
builder, "per repetition ... two single-qubit rotation operations (first
kind, then second kind) to each active qubit, each consuming one fresh
scalar parameter, followed by an entanglement layer", with the final
rotation layer optionally omitted. -/
def buildCircuit (resolve : Resolver) (s : TwoLocalArgs) : List Op :=
  let qs := activeQubits resolve s
  let ppl := s.rotation_blocks.length * qs.length
  repLayers resolve s qs ppl s.reps ++
    (if s.skip_final_rotation_layer then []
     else rotLayer s.rotation_blocks qs (s.reps * ppl))

/-- The parameter indices an operation consumes. -/
def opParams : Op → List Nat
  | Op.rot _ _ j => [j]
  | Op.ent _ _ => []
  | Op.barrier => []

/-- The parameter indices consumed by a list of operations, in order. -/
def usedParams : List Op → List Nat
  | [] => []
  | op :: rest => opParams op ++ usedParams rest

/-- Modelled from the spec: the name of the free parameter with index `i`,
"the configured prefix with sequential indices" (rendered `stem[i]`, as in
the circuit drawings of the module docstring). -/
def paramName (stem : String) (i : Nat) : String :=
  stem ++ "[" ++ toString i ++ "]"

/-- The names of the free parameters of the produced circuit, in order of
first consumption. -/
def circuitParamNames (resolve : Resolver) (s : TwoLocalArgs) : List String :=
  (usedParams (buildCircuit resolve s)).map (paramName (paramStem s))

theorem usedParams_append (l₁ l₂ : List Op) :
    usedParams (l₁ ++ l₂) = usedParams l₁ ++ usedParams l₂ := by
  induction l₁ with
  | nil => rfl
  | cons op rest ih => simp [usedParams, ih]

theorem usedParams_qubitRots (g : Gate) (qs : List Nat) (start : Nat) :
    usedParams (qubitRots g qs start) = List.range' start qs.length := by
  induction qs generalizing start with
  | nil => rfl
  | cons q qs ih => simp [qubitRots, usedParams, opParams, ih, List.range'_succ]

theorem usedParams_rotLayer (bs : List Gate) (qs : List Nat) (start : Nat) :
    usedParams (rotLayer bs qs start) = List.range' start (bs.length * qs.length) := by
  induction bs generalizing start with
  | nil => simp [rotLayer, usedParams]
  | cons g gs ih =>
    rw [rotLayer, usedParams_append, usedParams_qubitRots, ih,
      List.range'_append_1]
    congr 1
    simp [List.length_cons]
    ring

theorem usedParams_entsMap (g : Gate) (conns : List (List Nat)) :
    usedParams (conns.map (Op.ent g)) = [] := by
  induction conns with
  | nil => rfl
  | cons c cs ih => simp [usedParams, opParams, ih]

theorem usedParams_entOps (conns : List (List Nat)) (gs : List Gate) :
    usedParams (entOps conns gs) = [] := by
  induction gs with
  | nil => rfl
  | cons g gs ih => simp [entOps, usedParams_append, usedParams_entsMap, ih]

theorem usedParams_entLayer (resolve : Resolver) (s : TwoLocalArgs) (i : Nat) :
    usedParams (entLayer resolve s i) = [] := by
  simp [entLayer, usedParams_entOps]

theorem usedParams_barrierIf (b : Bool) :
    usedParams (barrierIf b) = [] := by
  cases b <;> rfl

theorem usedParams_repLayers (resolve : Resolver) (s : TwoLocalArgs)
    (qs : List Nat) (k : Nat) :
    usedParams (repLayers resolve s qs (s.rotation_blocks.length * qs.length) k) =
      List.range' 0 (k * (s.rotation_blocks.length * qs.length)) := by
  induction k with
  | zero => simp [repLayers, usedParams]
  | succ k ih =>
    have happ := List.range'_append_1 0
      (k * (s.rotation_blocks.length * qs.length))
      (s.rotation_blocks.length * qs.length)
    simp only [Nat.zero_add] at happ
    rw [repLayers, usedParams_append, ih]
    simp only [usedParams_append, usedParams_rotLayer, usedParams_entLayer,
      usedParams_barrierIf, List.append_nil]
    rw [happ]
    congr 1
    ring

theorem usedParams_buildCircuit (resolve : Resolver) (s : TwoLocalArgs) :
    usedParams (buildCircuit resolve s) = List.range (num_parameters resolve s) := by
  cases hsf : s.skip_final_rotation_layer with
  | true =>
    simp only [buildCircuit, hsf, if_true]
    rw [usedParams_append, usedParams_repLayers]
    simp only [usedParams, List.append_nil]
    rw [List.range_eq_range']
    congr 1
    simp [num_parameters, numLayers, hsf]
    ring
  | false =>
    have happ := List.range'_append_1 0
      (s.reps * (s.rotation_blocks.length * (activeQubits resolve s).length))
      (s.rotation_blocks.length * (activeQubits resolve s).length)
    simp only [Nat.zero_add] at happ
    simp only [buildCircuit, hsf, Bool.false_eq_true, if_false]
    rw [usedParams_append, usedParams_repLayers, usedParams_rotLayer, happ,
      List.range_eq_range']
    congr 1
    simp [num_parameters, numLayers, hsf]
    ring

/-- C1: for every RYRZ builder state, `parameter_bounds` returns a sequence
whose length equals the current free-parameter count and in which every
element is exactly the pair (−π, π). -/
theorem ryrz_parameter_bounds_spec (p : ℝ) (resolve : Resolver)
    (s : TwoLocalArgs) :
    (parameter_bounds p resolve s).length = num_parameters resolve s ∧
    ∀ b ∈ parameter_bounds p resolve s, b = (-p, p) :=
  ⟨by simp [parameter_bounds], fun _ hb => List.eq_of_mem_replicate hb⟩

/-- Witness for C1 at π abstracted to 1, a concrete resolver and the state
of `RYRZ(3, reps=1)`, whose twelve bounds all equal the pair (−1, 1). -/
theorem ryrz_parameter_bounds_spec_witness :
    ((-(1 : ℝ), (1 : ℝ)) ∈ parameter_bounds 1 (fun _ _ _ => [])
        (RYRZ.toArgs (some 3) (BlockSpec.single Gate.cz)
          (Entanglement.named "full") 1 false false "θ" false none)) ∧
    (-(1 : ℝ), (1 : ℝ)) = (-(1 : ℝ), (1 : ℝ)) := by
  have hmem : (-(1 : ℝ), (1 : ℝ)) ∈ parameter_bounds 1 (fun _ _ _ => [])
      (RYRZ.toArgs (some 3) (BlockSpec.single Gate.cz)
        (Entanglement.named "full") 1 false false "θ" false none) := by
    simp [parameter_bounds, num_parameters, activeQubits, RYRZ.toArgs,
      qubitCount, numLayers, List.mem_replicate]
  exact ⟨hmem, (ryrz_parameter_bounds_spec 1 (fun _ _ _ => [])
    (RYRZ.toArgs (some 3) (BlockSpec.single Gate.cz)
      (Entanglement.named "full") 1 false false "θ" false none)).2 _ hmem⟩

/-- C2: with no skipped layers, an RYRZ circuit on `n` qubits with `r`
repetitions has exactly 2·n·(r+1) free parameters, whatever the
entanglement configuration and resolver. -/
theorem ryrz_param_count_no_skip (n r : Nat) (resolve : Resolver)
    (eb : BlockSpec) (e : Entanglement) (pfx : String) (ib : Bool)
    (ist : Option Unit) :
    num_parameters resolve (RYRZ.toArgs (some n) eb e r false false pfx ib ist) =
      2 * n * (r + 1) := by
  simp [num_parameters, activeQubits, RYRZ.toArgs, qubitCount, numLayers]
  ring

/-- C3: with the final rotation layer skipped, an RYRZ circuit on `n` qubits
with `r` repetitions has exactly 2·n·r free parameters. -/
theorem ryrz_param_count_skip_final (n r : Nat) (resolve : Resolver)
    (eb : BlockSpec) (e : Entanglement) (pfx : String) (ib : Bool)
    (ist : Option Unit) :
    num_parameters resolve (RYRZ.toArgs (some n) eb e r false true pfx ib ist) =
      2 * n * r := by
  have hlen : (activeQubits resolve
      (RYRZ.toArgs (some n) eb e r false true pfx ib ist)).length = n := by
    simp [activeQubits, RYRZ.toArgs, qubitCount]
  have hlay : numLayers (RYRZ.toArgs (some n) eb e r false true pfx ib ist) = r := rfl
  have hrot : (TwoLocalArgs.rotation_blocks
      (RYRZ.toArgs (some n) eb e r false true pfx ib ist)).length = 2 := rfl
  simp only [num_parameters, hlen, hlay, hrot]
  ring

/-- C4: after reassigning the qubit count (or the repetition count) of a
constructed RYRZ state, reads of `parameter_bounds` reflect the new
configuration — the bounds length is the parameter count of the updated
state, with no dependence on the construction-time value — and in general
`parameter_bounds` is recomputed on demand from the current parameter
count. -/
theorem ryrz_bounds_not_stale (p : ℝ) (resolve : Resolver) (m₀ n r : Nat)
    (eb : BlockSpec) (e : Entanglement) (pfx : String) (ib : Bool)
    (ist : Option Unit) :
    (parameter_bounds p resolve
        (setNumQubits (RYRZ.toArgs (some m₀) eb e r false false pfx ib ist)
          (some n))).length = 2 * n * (r + 1) ∧
    (parameter_bounds p resolve
        (setReps (RYRZ.toArgs (some m₀) eb e r false false pfx ib ist)
          n)).length = 2 * m₀ * (n + 1) ∧
    ∀ s : TwoLocalArgs,
      (parameter_bounds p resolve s).length = num_parameters resolve s := by
  refine ⟨?_, ?_, fun s => by simp [parameter_bounds]⟩
  · have hlen : (activeQubits resolve
        (setNumQubits (RYRZ.toArgs (some m₀) eb e r false false pfx ib ist)
          (some n))).length = n := by
      simp [activeQubits, setNumQubits, RYRZ.toArgs, qubitCount]
    have hlay : numLayers
        (setNumQubits (RYRZ.toArgs (some m₀) eb e r false false pfx ib ist)
          (some n)) = r + 1 := rfl
    have hrot : (TwoLocalArgs.rotation_blocks
        (setNumQubits (RYRZ.toArgs (some m₀) eb e r false false pfx ib ist)
          (some n))).length = 2 := rfl
    simp only [parameter_bounds, List.length_replicate, num_parameters, hlen,
      hlay, hrot]
    ring
  · have hlen : (activeQubits resolve
        (setReps (RYRZ.toArgs (some m₀) eb e r false false pfx ib ist)
          n)).length = m₀ := by
      simp [activeQubits, setReps, RYRZ.toArgs, qubitCount]
    have hlay : numLayers
        (setReps (RYRZ.toArgs (some m₀) eb e r false false pfx ib ist) n) =
        n + 1 := rfl
    have hrot : (TwoLocalArgs.rotation_blocks
        (setReps (RYRZ.toArgs (some m₀) eb e r false false pfx ib ist)
          n)).length = 2 := rfl
    simp only [parameter_bounds, List.length_replicate, num_parameters, hlen,
      hlay, hrot]
    ring

/-- C5: the RYRZ constructor is exactly the external base constructor run on
the forwarded arguments, so every failure originates in the base builder and
propagates unchanged, and every success is the base builder's result;
`parameter_bounds` is a total function and cannot fail. -/
theorem ryrz_errors_from_base {ε : Type}
    (base : TwoLocalArgs → Except ε TwoLocalArgs) (nq : Option Nat)
    (eb : BlockSpec) (e : Entanglement) (r : Nat) (su sf : Bool)
    (pfx : String) (ib : Bool) (ist : Option Unit) :
    (∀ err, base (RYRZ.toArgs nq eb e r su sf pfx ib ist) = Except.error err →
      RYRZ.init base nq eb e r su sf pfx ib ist = Except.error err) ∧
    (∀ out, base (RYRZ.toArgs nq eb e r su sf pfx ib ist) = Except.ok out →
      RYRZ.init base nq eb e r su sf pfx ib ist = Except.ok out) :=
  ⟨fun _ h => h, fun _ h => h⟩

/-- Witness for C5: a base builder that rejects its input; the RYRZ
constructor surfaces exactly that error. -/
theorem ryrz_errors_from_base_witness :
    RYRZ.init (fun _ => Except.error "invalid entanglement") none
      (BlockSpec.single Gate.cz) (Entanglement.named "full") 3 false false "θ"
      false none = Except.error "invalid entanglement" :=
  (ryrz_errors_from_base (fun _ => Except.error "invalid entanglement") none
    (BlockSpec.single Gate.cz) (Entanglement.named "full") 3 false false "θ"
    false none).1 "invalid entanglement" rfl

/-- C6: the RYRZ template consumes, over its rotation layers, exactly the
fresh scalar parameters 0, 1, …, count−1 in order (each rotation one fresh
parameter, entanglement layers none), and each rotation layer applies the
first rotation kind (RY) to every active qubit followed by the second
rotation kind (RZ). -/
theorem ryrz_template_structure (resolve : Resolver) (nq : Option Nat)
    (eb : BlockSpec) (e : Entanglement) (r : Nat) (su sf : Bool)
    (pfx : String) (ib : Bool) (ist : Option Unit) :
    usedParams (buildCircuit resolve (RYRZ.toArgs nq eb e r su sf pfx ib ist)) =
      List.range (num_parameters resolve (RYRZ.toArgs nq eb e r su sf pfx ib ist)) ∧
    ∀ (qs : List Nat) (start : Nat),
      rotLayer (TwoLocalArgs.rotation_blocks (RYRZ.toArgs nq eb e r su sf pfx ib ist))
          qs start =
        qubitRots Gate.ry qs start ++ qubitRots Gate.rz qs (start + qs.length) := by
  refine ⟨usedParams_buildCircuit resolve _, fun qs start => ?_⟩
  simp [RYRZ.toArgs, rotLayer]

/-- C7: with `skip_unentangled_qubits` unset the parameter count is
independent of the entanglement topology (and of how the external builder
resolves it); in particular four qubits, one repetition and 'circular'
entanglement give 16 parameters. -/
theorem ryrz_count_topology_independent :
    (∀ resolve : Resolver,
      num_parameters resolve (RYRZ.toArgs (some 4) (BlockSpec.single Gate.cz)
        (Entanglement.named "circular") 1 false false "θ" false none) = 16) ∧
    (∀ (resolve resolve' : Resolver) (e e' : Entanglement) (nq : Option Nat)
        (eb : BlockSpec) (r : Nat) (pfx : String) (ib : Bool) (ist : Option Unit),
      num_parameters resolve (RYRZ.toArgs nq eb e r false false pfx ib ist) =
        num_parameters resolve' (RYRZ.toArgs nq eb e' r false false pfx ib ist)) := by
  constructor
  · intro resolve
    simp [num_parameters, activeQubits, RYRZ.toArgs, qubitCount, numLayers]
  · intro resolve resolve' e e' nq eb r pfx ib ist
    simp [num_parameters, activeQubits, RYRZ.toArgs, qubitCount, numLayers]

/-- C8: the free parameters of the produced circuit are named with the
configured prefix and sequential indices 0, 1, 2, … in order. -/
theorem ryrz_parameter_names (resolve : Resolver) (nq : Option Nat)
    (eb : BlockSpec) (e : Entanglement) (r : Nat) (su sf : Bool)
    (pfx : String) (ib : Bool) (ist : Option Unit) :
    circuitParamNames resolve (RYRZ.toArgs nq eb e r su sf pfx ib ist) =
      (List.range (num_parameters resolve (RYRZ.toArgs nq eb e r su sf pfx ib ist))).map
        (paramName pfx) := by
  rw [circuitParamNames, usedParams_buildCircuit]
  rfl

/-- C9: the two fixed rotation-gate kinds forwarded by every RYRZ
construction are exactly RY followed by RZ. -/
theorem ryrz_rotation_blocks (nq : Option Nat) (eb : BlockSpec)
    (e : Entanglement) (r : Nat) (su sf : Bool) (pfx : String) (ib : Bool)
    (ist : Option Unit) :
    TwoLocalArgs.rotation_blocks (RYRZ.toArgs nq eb e r su sf pfx ib ist) =
      [Gate.ry, Gate.rz] := rfl

/-- C10: the defaults of the RYRZ constructor are CZ entanglement blocks,
'full' entanglement, 3 repetitions, no skipped rotations, parameter
prefix "θ", no barriers, no initial state, and an unset qubit count. -/
theorem ryrz_default_arguments :
    RYRZ.defaults.num_qubits = none ∧
    RYRZ.defaults.entanglement_blocks = BlockSpec.single Gate.cz ∧
    RYRZ.defaults.entanglement = Entanglement.named "full" ∧
    RYRZ.defaults.reps = 3 ∧
    RYRZ.defaults.skip_unentangled_qubits = false ∧
    RYRZ.defaults.skip_final_rotation_layer = false ∧
    paramStem RYRZ.defaults = "θ" ∧
    RYRZ.defaults.insert_barriers = false ∧
    RYRZ.defaults.initial_state = none :=
  ⟨rfl, rfl, rfl, rfl, rfl, rfl, rfl, rfl, rfl⟩
